import Mathlib

/-!
Shallow embedding of the output pipeline of `src/output_alsa.c` (squeezelite,
modified), covering the volume controller (`set_volume`, `set_mixer`), the
`alsa_open` parameter negotiation and rate-retry loop, the `_write_frames`
error bookkeeping, the `output_thread` state machine, and the volume-mixer
initialization path of `output_init_alsa`.

Machine integers are modelled as `Int`/`Nat`; C truncating division is
`Int.tdiv`; a C array read at a possibly negative or too-large index is
modelled as an `Option` lookup (`none` meaning an out-of-bounds access).
-/

namespace SqueezeliteAlsa

/-- Fixed-point unity of the 16.16 gain scale (squeezelite FIXED_ONE). -/
def FIXED_ONE : Int := 65536

/-- MINVOL_DB from output_alsa.c line 190. -/
def MINVOL_DB : Int := -72

/-- ALSA sentinel for mute, in hundredths of a dB. -/
def MUTE_SENTINEL : Int := -9999999

/-- The 101-entry LMS volume curve table `gscale` from `set_volume`
(output_alsa.c lines 244-254), transcribed verbatim, including its
documented defects (duplicate values 3328/2816/2304 and the swapped
pair 2048/2050). -/
def gscale : List Int :=
  [65536, 61952, 58624, 55296, 52224, 49408, 46592, 44032, 41728, 39424,
   37120, 35072, 33024, 31232, 29696, 27904, 26368, 24832, 23552, 22272,
   20992, 19968, 18688, 17664, 16640, 15872, 14848, 14080, 13312, 12544,
   12032, 11264, 10752,  9984,  9472,  8960,  8448,  7936,  7680,  7168,
    6656,  6400,  6144,  5632,  5376,  5120,  4864,  4608,  4352,  4096,
    3840,  3584,  3328,  3328,  3072,  2816,  2816,  2560,  2304,  2304,
    2048,  2050,  1937,  1830,  1729,  1634,  1543,  1458,  1378,  1302,
    1230,  1162,  1098,  1037,   980,   926,   781,   658,   555,   468,
     395,   333,   281,   237,   200,   168,   142,   120,   101,    85,
      72,    61,    51,    43,    36,    31,    26,    22,    18,    16,
       0]

/-- The corrected 101-entry table `gscalenew` from `set_volume`
(output_alsa.c lines 268-274), transcribed verbatim. -/
def gscalenew : List Int :=
  [65536, 58409, 52057, 46396, 41350, 36854, 32768, 29274, 26090,
   23253, 20724, 18471, 16384, 14672, 13076, 11654, 10387, 9257, 8192,
   7353, 6554, 5841, 5206, 4640, 4096, 3685, 3285, 2927, 2609, 2325,
   2048, 1847, 1646, 1467, 1308, 1165, 1024, 926, 825, 735, 655,
   584, 512, 464, 414, 369, 328, 293, 256, 233, 207, 185, 165, 147, 128,
   117, 104, 93, 83, 74, 64, 58, 52, 46, 41, 37, 32, 29, 26, 23, 21, 18, 16,
   0, 0, 0, 0, 0, 0, 0, 0, 0, 0, 0, 0, 0, 0, 0, 0, 0, 0, 0, 0, 0, 0, 0, 0, 0, 0, 0, 0]

/-- Entry `n` of the corrected table, with C semantics irrelevant default. -/
def gElem (n : Nat) : Int := (gscalenew.get? n).getD 0

/-- The C bracket-search loop
`for(i...) if (gscale[i] < left) { lower = i; break; }`:
returns the index of the first entry strictly below `left`,
or `none` when no entry is (the C variable then keeps its initial 0). -/
def bracketLoop (left : Int) : List Int → Nat → Option Nat
  | [], _ => none
  | g :: gs, i => if g < left then some i else bracketLoop left gs (i + 1)

/-- The value of the C loop variable `lower`/`low` after the bracket search
over `gscale`: first index whose entry is `< left`, defaulting to the
initializer 0 when the loop never breaks. -/
def lowerIdx (left : Nat) : Nat :=
  (bracketLoop (left : Int) gscale 0).getD 0

/-- A C array read `t[i]` with `i` a possibly negative C `int`:
`none` models an out-of-bounds access (undefined behaviour). -/
def tblGet (t : List Int) (i : Int) : Option Int :=
  if 0 ≤ i then t.get? i.toNat else none

/-- The fields of the global `alsa` struct that `set_volume`/`set_mixer`
consult (output_alsa.c lines 56-81). -/
structure VolCfg where
  volume_mixer_name : Option (List Char)
  mixer_linear : Bool
  linear_dB_internal : Bool
  mixer_mindb : Int
  mixer_maxdb : Int

/-- Observable effects of one `set_volume` call, in program order:
stores to `output.gainL`/`output.gainR` under the lock, the
`snd_mixer_selem_set_playback_dB_all` command (its first argument,
in hundredths of a dB), or an out-of-bounds table read. -/
inductive VolEvent where
  | setGains (l r : Int)
  | mixerSet (db100 : Int)
  | oobRead (t : List Int) (i : Int)
  deriving DecidableEq

/-- Model of `set_mixer` (output_alsa.c lines 192-234): the guard forcing
`setmin`, the `setmax`/`setmin` overrides (in that order), and the final
dB-all command `100 * ldb`.  Only `ldb` feeds the command, as in the C. -/
def set_mixer (cfg : VolCfg) (setmax setmin : Bool) (ldb rdb : Int) : List VolEvent :=
  let setmin := (decide (ldb < MINVOL_DB) || decide (ldb = MUTE_SENTINEL) || setmin)
  let ldb := if setmax then cfg.mixer_maxdb.tdiv 100 else ldb
  let ldb := if setmin then cfg.mixer_mindb.tdiv 100 else ldb
  let _ := rdb
  [VolEvent.mixerSet (100 * ldb)]

/-- Software-gain branch of `set_volume` (output_alsa.c lines 278-319):
curve-corrected mapping through `gscalenew` when `linear_dB_internal`
is set (the local `l`/`r` keep their initializer 0 when `left = 0`),
else the linear passthrough `l = left; r = right`. -/
def sw_gain_events (cfg : VolCfg) (left right : Nat) : List VolEvent :=
  if cfg.linear_dB_internal then
    if 0 < left then
      let lower := lowerIdx left
      match tblGet gscalenew ((lower : Int) - 1) with
      | some g => [VolEvent.setGains g g]
      | none => [VolEvent.oobRead gscalenew ((lower : Int) - 1)]
    else [VolEvent.setGains 0 0]
  else [VolEvent.setGains (left : Int) (right : Int)]

/-- Hardware-mixer branch of `set_volume` (output_alsa.c lines 327-357):
either the dB conversion `floor(20*log10(left/65536))` (abstracted as the
parameter `dbc`, a floating-point computation), or the linear bracket
search over `gscale` choosing the nearer of the two bracket entries;
`left = 0` forces `setmin` with `ldb = mixer_mindb / 100`. -/
def hw_gain_events (cfg : VolCfg) (dbc : Nat → Int) (left : Nat) : List VolEvent :=
  if !cfg.mixer_linear then
    if 0 < left then
      set_mixer cfg false false (dbc left) (dbc left)
    else
      set_mixer cfg false true (cfg.mixer_mindb.tdiv 100) (cfg.mixer_mindb.tdiv 100)
  else
    if 0 < left then
      let low := lowerIdx left
      match tblGet gscale ((low : Int) - 1), tblGet gscale (low : Int) with
      | some gl, some gh =>
        let v : Int := if (left : Int) - gh ≤ gl - (left : Int)
                       then -(low : Int) else -((low : Int) - 1)
        set_mixer cfg false false v v
      | _, _ => [VolEvent.oobRead gscale ((low : Int) - 1)]
    else
      set_mixer cfg false true (cfg.mixer_mindb.tdiv 100) (cfg.mixer_mindb.tdiv 100)

/-- Model of `set_volume` (output_alsa.c lines 237-358): the software
branch when no hardware mixer is configured, else the stores of
`FIXED_ONE` to both gains (lines 321-325) followed by the hardware
branch and its mixer command. -/
def set_volume (cfg : VolCfg) (dbc : Nat → Int) (left right : Nat) : List VolEvent :=
  if cfg.volume_mixer_name.isNone then
    sw_gain_events cfg left right
  else
    VolEvent.setGains FIXED_ONE FIXED_ONE :: hw_gain_events cfg dbc left

/-- True when the event list contains an out-of-bounds table read. -/
def hasOob (evs : List VolEvent) : Bool :=
  evs.any fun e => match e with | VolEvent.oobRead _ _ => true | _ => false

/-- True when the event list contains a hardware mixer command. -/
def hasMixerCmd (evs : List VolEvent) : Bool :=
  evs.any fun e => match e with | VolEvent.mixerSet _ => true | _ => false

/-- True when the event list contains a software-gain store. -/
def hasSetGains (evs : List VolEvent) : Bool :=
  evs.any fun e => match e with | VolEvent.setGains _ _ => true | _ => false

/-- Configuration: software volume, curve-corrected mode
(`linear_dB_internal` set, no mixer name). -/
def swCurveCfg : VolCfg := ⟨none, false, true, -10239, 0⟩

/-- Configuration: software volume, linear passthrough mode. -/
def swLinearCfg : VolCfg := ⟨none, false, false, -10239, 0⟩

/-- Configuration: hardware mixer, dB-conversion (non-linear) mode. -/
def hwDbCfg (mindb maxdb : Int) : VolCfg :=
  ⟨some ['P', 'C', 'M'], false, false, mindb, maxdb⟩

/-- Configuration: hardware mixer, linear table-search mode. -/
def hwLinCfg (mindb maxdb : Int) : VolCfg :=
  ⟨some ['P', 'C', 'M'], true, false, mindb, maxdb⟩

/-- Stand-in for the floating-point dB conversion, for concrete witnesses. -/
def dbConv0 : Nat → Int := fun _ => 0

/-- Buffer negotiation request issued by `alsa_open`
(output_alsa.c lines 595-609). -/
inductive BufferReq where
  | timeUs (t : Nat)
  | sizeFrames (n : Nat)
  deriving DecidableEq

/-- The buffer-size disambiguation in `alsa_open` (lines 595-609): a value
below 500 is a duration in ms, negotiated as a buffer time of
`alsa_buffer * 1000` microseconds; otherwise an explicit frame count. -/
def alsaBufferRequest (alsa_buffer : Nat) : BufferReq :=
  if alsa_buffer < 500 then BufferReq.timeUs (alsa_buffer * 1000)
  else BufferReq.sizeFrames alsa_buffer

/-! Model of the `alsa_open` rate-retry loop (output_alsa.c lines 463-497). -/

/-- The `strncmp(device, "hw:", 3)` test used at line 479. -/
def startsHw : List Char → Bool
  | c1 :: c2 :: c3 :: _ => c1 = 'h' && c2 = 'w' && c3 = ':'
  | _ => false

/-- The device-name rewrite of lines 489-490:
`strcpy(alsa.device + 4, device); memcpy(alsa.device, "plug", 4)`. -/
def plugVariant (device : List Char) : List Char :=
  'p' :: 'l' :: 'u' :: 'g' :: device

/-- One device-open attempt of the do-while loop: the device name used and
the resampling argument `!hw` passed to `snd_pcm_hw_params_set_rate_resample`. -/
structure OpenAttempt where
  device : List Char
  resample : Bool
  deriving DecidableEq

/-- The do-while retry loop of `alsa_open` (lines 464-497), as the list of
open attempts it performs: `rateOk` abstracts whether
`snd_pcm_hw_params_set_rate` succeeds for a given device name; on failure
with an `hw:` device, the loop retries with the `plug`-prefixed name.
The fuel bounds the loop; two suffices because a retried name starts with
`plug` and so never retries again. -/
def rateLoop (rateOk : List Char → Bool) : Nat → List Char → List OpenAttempt
  | 0, _ => []
  | fuel + 1, dev =>
    let hw := startsHw dev
    let att : OpenAttempt := ⟨dev, !hw⟩
    if rateOk dev then [att]
    else if hw then att :: rateLoop rateOk fuel (plugVariant dev)
    else [att]

/-- The open attempts made by one `alsa_open` call. -/
def alsaOpenAttempts (device : List Char) (rateOk : List Char → Bool) : List OpenAttempt :=
  rateLoop rateOk 2 device

/-! Model of the `_write_frames` unrecoverable-error bookkeeping
(output_alsa.c lines 729-750). -/

/-- Outcome of one `snd_pcm_writei` call: success, failure recovered by
`snd_pcm_recover`, or failure that `snd_pcm_recover` also fails on. -/
inductive WriteEvent where
  | ok
  | recoverable
  | unrecoverable
  deriving DecidableEq

/-- The `static unsigned recover_count` of `_write_frames` and the device
handle `pcmp` (present/absent). -/
structure WriteState where
  recover_count : Nat
  pcmpOpen : Bool
  deriving DecidableEq

/-- One `_write_frames` call on an open session (lines 731-749): only an
unrecoverable failure touches `recover_count` (`++recover_count` then
`recover_count >= 10` closes the session and resets the counter); a
successful or recovered write leaves the counter unchanged. -/
def writeStep (s : WriteState) (e : WriteEvent) : WriteState :=
  if s.pcmpOpen then
    match e with
    | WriteEvent.ok => s
    | WriteEvent.recoverable => s
    | WriteEvent.unrecoverable =>
      if s.recover_count + 1 ≥ 10 then { recover_count := 0, pcmpOpen := false }
      else { s with recover_count := s.recover_count + 1 }
  else s

/-- Folding a sequence of write outcomes over one session epoch (after the
session closes itself, `output_thread` must reopen before any further
write, so later events no longer touch this epoch). -/
def runWrites (s : WriteState) : List WriteEvent → WriteState
  | [] => s
  | e :: es => runWrites (writeStep s e) es

/-- Fresh session: `static` counter zero-initialized, handle open. -/
def initWriteState : WriteState := ⟨0, true⟩

/-- Number of unrecoverable write failures in a trace. -/
def countUnrec : List WriteEvent → Nat
  | [] => 0
  | WriteEvent.ok :: es => countUnrec es
  | WriteEvent.recoverable :: es => countUnrec es
  | WriteEvent.unrecoverable :: es => countUnrec es + 1

/-- True when the trace never has two unrecoverable failures in a row. -/
def noAdjacentUnrec : List WriteEvent → Bool
  | WriteEvent.unrecoverable :: WriteEvent.unrecoverable :: _ => false
  | _ :: es => noAdjacentUnrec es
  | [] => true

/-- Ten unrecoverable failures, each separated by a successful write. -/
def spacedFailTrace : List WriteEvent :=
  (List.replicate 9 [WriteEvent.unrecoverable, WriteEvent.ok]).flatten ++
    [WriteEvent.unrecoverable]

/-! Model of one iteration of the `output_thread` loop
(output_alsa.c lines 763-968). -/

/-- Result of `snd_pcm_state` (line 828) as distinguished by the thread. -/
inductive PcmSt where
  | run
  | xrun
  | suspended
  | disconnected
  deriving DecidableEq

/-- Result of `snd_pcm_delay` (line 938) as distinguished by the thread. -/
inductive DelayRes where
  | ok
  | epipe
  | eio
  | othererr
  deriving DecidableEq

/-- Hardware (PCM) calls an iteration can issue, in program order. -/
inductive HwCall where
  | probeDev
  | openDev
  | closeDev
  | queryState
  | recover
  | availUpdate
  | pcmStart
  | pcmWait
  | pcmDelay
  | pcmWrite
  deriving DecidableEq

/-- The `alsa` configuration fields the thread consults. -/
structure AlsaParams where
  mmap : Bool
  reopen : Bool
  period_size : Int
  buffer_size : Int
  deriving DecidableEq

/-- Thread-local state across iterations: the locals `output_off`,
`probe_device`, `start`, the handle `pcmp` and the cached `alsa.rate`,
plus the published `output.error_opening`. -/
structure TState where
  output_off : Bool
  probe_device : Bool
  start : Bool
  pcmpOpen : Bool
  alsaRate : Nat
  error_opening : Bool
  deriving DecidableEq

/-- External observations of one iteration: the shared `output.state`
(OFF or not), the requested sample rate, and the outcomes of the
hardware calls the iteration may make. -/
structure ThreadEnv where
  stateOff : Bool
  reqRate : Nat
  probeOk : Bool
  openOk : Bool
  pcmState : PcmSt
  avail : Int
  availRecoverENODEV : Bool
  startOk : Bool
  startRecoverENODEV : Bool
  waitOk : Bool
  delayRes : DelayRes
  deriving DecidableEq

/-- Lines 914-967: under the lock, a requested OFF closes the session and
enters the off loop; otherwise `snd_pcm_delay` then `_output_frames`
(whose device write is `pcmWrite`); an EPIPE/EIO delay result skips the
transfer, any other delay error is only logged and the transfer proceeds. -/
def iterLock (s : TState) (e : ThreadEnv) (acc : List HwCall) :
    TState × List HwCall :=
  if e.stateOff then
    ({ s with pcmpOpen := false, output_off := true }, acc ++ [HwCall.closeDev])
  else
    let acc := acc ++ [HwCall.pcmDelay]
    match e.delayRes with
    | DelayRes.epipe => (s, acc)
    | DelayRes.eio => (s, acc)
    | DelayRes.ok => (s, acc ++ [HwCall.pcmWrite])
    | DelayRes.othererr => (s, acc ++ [HwCall.pcmWrite])

/-- Lines 850-912: `snd_pcm_avail_update`, recovery on negative avail
(ENODEV closes and re-probes), the below-one-period start/wait handling,
the clamp of avail to buffer size (mmap) or period size (writei), and the
benign zero-avail sleep. -/
def iterAvail (p : AlsaParams) (s : TState) (e : ThreadEnv) (acc : List HwCall) :
    TState × List HwCall :=
  let acc := acc ++ [HwCall.availUpdate]
  if e.avail < 0 then
    if e.availRecoverENODEV then
      ({ s with pcmpOpen := false, probe_device := true },
        acc ++ [HwCall.recover, HwCall.closeDev])
    else ({ s with start := true }, acc ++ [HwCall.recover])
  else if e.avail < p.period_size then
    if s.start then
      if p.mmap && !e.startOk then
        if e.startRecoverENODEV then
          ({ s with pcmpOpen := false, probe_device := true },
            acc ++ [HwCall.pcmStart, HwCall.recover, HwCall.closeDev])
        else (s, acc ++ [HwCall.pcmStart, HwCall.recover])
      else
        ({ s with start := false },
          acc ++ (if p.mmap then [HwCall.pcmStart] else []))
    else
      if e.waitOk then (s, acc ++ [HwCall.pcmWait])
      else ({ s with start := true }, acc ++ [HwCall.pcmWait, HwCall.recover])
  else
    let avail := if p.mmap then min e.avail p.buffer_size else min e.avail p.period_size
    if avail = 0 then (s, acc)
    else iterLock s e acc

/-- Lines 828-848: `snd_pcm_state` and the XRUN / SUSPENDED /
DISCONNECTED reactions (only SUSPENDED falls through to the avail path
in the same iteration). -/
def iterState (p : AlsaParams) (s : TState) (e : ThreadEnv) (acc : List HwCall) :
    TState × List HwCall :=
  let acc := acc ++ [HwCall.queryState]
  match e.pcmState with
  | PcmSt.xrun => ({ s with start := true }, acc ++ [HwCall.recover])
  | PcmSt.suspended => iterAvail p s e (acc ++ [HwCall.recover])
  | PcmSt.disconnected =>
    ({ s with pcmpOpen := false, probe_device := true }, acc ++ [HwCall.closeDev])
  | PcmSt.run => iterAvail p s e acc

/-- Lines 787-826: reopen when the handle is absent or the cached rate
differs from the requested one; a failed `alsa_open` leaves the handle
closed with `alsa.rate` reset, publishes `error_opening` and retries next
iteration; the `alsa.reopen` workaround issues a redundant open first. -/
def iterOpen (p : AlsaParams) (s : TState) (e : ThreadEnv) (acc : List HwCall) :
    TState × List HwCall :=
  if ¬ s.pcmpOpen ∨ s.alsaRate ≠ e.reqRate then
    let acc := acc ++ (if p.reopen then [HwCall.openDev] else []) ++ [HwCall.openDev]
    if e.openOk then
      iterState p
        { s with pcmpOpen := true, alsaRate := e.reqRate,
                 error_opening := false, start := true } e acc
    else
      ({ s with pcmpOpen := false, alsaRate := 0, error_opening := true }, acc)
  else iterState p s e acc

/-- Lines 778-785: when waiting for a vanished device, one `pcm_probe`
poll per pass; on success the iteration proceeds to the open check. -/
def iterBody (p : AlsaParams) (s : TState) (e : ThreadEnv) :
    TState × List HwCall :=
  if s.probe_device then
    if e.probeOk then iterOpen p { s with probe_device := false } e [HwCall.probeDev]
    else (s, [HwCall.probeDev])
  else iterOpen p s e []

/-- One pass of the thread loop (lines 763-968): while the player is off
the thread only sleeps and re-reads `output.state` (one 100 ms poll per
pass, no hardware calls); otherwise the main body runs. -/
def iterate (p : AlsaParams) (s : TState) (e : ThreadEnv) :
    TState × List HwCall :=
  if s.output_off then
    if e.stateOff then (s, [])
    else iterBody p { s with output_off := false } e
  else iterBody p s e

/-! Model of the volume-mixer initialization path of `output_init_alsa`
(output_alsa.c lines 1105-1117). -/

/-- Outcome of the mixer setup: the `alsa.mixer_handle` (present/absent),
the possibly cleared `alsa.volume_mixer_name`, whether the unmute
`set_mixer(1,0,0,0)` command was sent, and whether `output_init_alsa`
carries on to start the output thread. -/
structure VolInitResult where
  mixer_handle_present : Bool
  volume_mixer_name : Option (List Char)
  unmute_cmd_sent : Bool
  init_completed : Bool
  deriving DecidableEq

/-- Lines 1105-1117: a failed `mixer_init_alsa` clears both the handle and
the mixer name and initialization continues; a successful one keeps them,
and `mixer_unmute` then sends the max command and clears the name. -/
def initVolumeMixerPath (name : Option (List Char)) (mixerInitOk : Bool)
    (mixer_unmute : Bool) : VolInitResult :=
  match name with
  | none => ⟨false, none, false, true⟩
  | some n =>
    if mixerInitOk then
      if mixer_unmute then ⟨true, none, true, true⟩
      else ⟨true, some n, false, true⟩
    else ⟨false, none, false, true⟩

example : alsaBufferRequest 40 = BufferReq.timeUs 40000 := by decide
example : alsaBufferRequest 4096 = BufferReq.sizeFrames 4096 := by decide
example : set_volume swCurveCfg dbConv0 65537 65537 =
    [VolEvent.oobRead gscalenew (-1)] := by decide
example : set_volume swCurveCfg dbConv0 65536 0 = [VolEvent.setGains 65536 65536] := by decide
example : set_volume swCurveCfg dbConv0 1 0 = [VolEvent.setGains 0 0] := by decide
example : set_volume swLinearCfg dbConv0 0 5 = [VolEvent.setGains 0 5] := by decide
example : set_volume (hwLinCfg (-10239) 0) dbConv0 0 7 =
    [VolEvent.setGains FIXED_ONE FIXED_ONE, VolEvent.mixerSet (-10200)] := by decide

/-! Bracket-search lemmas. -/

theorem bracketLoop_nil (x : Int) (i : Nat) : bracketLoop x [] i = none := rfl

theorem bracketLoop_cons (x g : Int) (gs : List Int) (i : Nat) :
    bracketLoop x (g :: gs) i = if g < x then some i else bracketLoop x gs (i + 1) := rfl

theorem bracketLoop_ge (x : Int) :
    ∀ (l : List Int) (i j : Nat), bracketLoop x l i = some j → i ≤ j := by
  intro l
  induction l with
  | nil => intro i j h; simp [bracketLoop_nil] at h
  | cons g gs ih =>
    intro i j h
    rw [bracketLoop_cons] at h
    by_cases hg : g < x
    · rw [if_pos hg] at h
      exact (Option.some_inj.mp h) ▸ le_refl i
    · rw [if_neg hg] at h
      exact Nat.le_of_succ_le (ih (i + 1) j h)

theorem bracketLoop_lt_length (x : Int) :
    ∀ (l : List Int) (i j : Nat), bracketLoop x l i = some j → j < i + l.length := by
  intro l
  induction l with
  | nil => intro i j h; simp [bracketLoop_nil] at h
  | cons g gs ih =>
    intro i j h
    rw [bracketLoop_cons] at h
    by_cases hg : g < x
    · rw [if_pos hg] at h
      have hij : i = j := Option.some_inj.mp h
      simp only [List.length_cons]
      omega
    · rw [if_neg hg] at h
      have := ih (i + 1) j h
      simp only [List.length_cons]
      omega

theorem bracketLoop_isSome (x : Int) :
    ∀ (l : List Int), (∃ g ∈ l, g < x) → ∀ i, (bracketLoop x l i).isSome := by
  intro l
  induction l with
  | nil => intro h; simp at h
  | cons g gs ih =>
    intro h i
    rw [bracketLoop_cons]
    by_cases hg : g < x
    · rw [if_pos hg]; rfl
    · rw [if_neg hg]
      rcases h with ⟨g', hg', hlt⟩
      rcases List.mem_cons.mp hg' with h1 | h2
      · exact absurd (h1 ▸ hlt) hg
      · exact ih ⟨g', h2, hlt⟩ (i + 1)

theorem bracketLoop_mono (x y : Int) (hxy : x ≤ y) :
    ∀ (l : List Int) (i j : Nat), bracketLoop x l i = some j →
      ∃ j', bracketLoop y l i = some j' ∧ j' ≤ j := by
  intro l
  induction l with
  | nil => intro i j h; simp [bracketLoop_nil] at h
  | cons g gs ih =>
    intro i j h
    rw [bracketLoop_cons] at h
    by_cases hgx : g < x
    · rw [if_pos hgx] at h
      have hij : i = j := Option.some_inj.mp h
      refine ⟨i, ?_, le_of_eq hij⟩
      rw [bracketLoop_cons, if_pos (lt_of_lt_of_le hgx hxy)]
    · rw [if_neg hgx] at h
      by_cases hgy : g < y
      · refine ⟨i, ?_, ?_⟩
        · rw [bracketLoop_cons, if_pos hgy]
        · exact Nat.le_of_succ_le (bracketLoop_ge x gs (i + 1) j h)
      · rcases ih (i + 1) j h with ⟨j', hj', hle⟩
        refine ⟨j', ?_, hle⟩
        rw [bracketLoop_cons, if_neg hgy]
        exact hj'

/-- For `1 ≤ left ≤ 65536` the bracket search over `gscale` lands on an
index in `[1, 100]`: the last entry 0 guarantees a break, and the first
entry 65536 is not strictly below `left`. -/
theorem lowerIdx_bounds (left : Nat) (h1 : 1 ≤ left) (h2 : left ≤ 65536) :
    bracketLoop (left : Int) gscale 0 = some (lowerIdx left) ∧
      1 ≤ lowerIdx left ∧ lowerIdx left ≤ 100 := by
  have hmem : ∃ g ∈ gscale, g < (left : Int) := by
    refine ⟨0, by decide, ?_⟩
    exact_mod_cast h1
  have hsome := bracketLoop_isSome (left : Int) gscale hmem 0
  rcases Option.isSome_iff_exists.mp hsome with ⟨j, hj⟩
  have hlower : lowerIdx left = j := by
    simp [lowerIdx, hj]
  rw [hlower]
  refine ⟨hj, ?_, ?_⟩
  · -- the head 65536 is not < left, so the break happens at index ≥ 1
    have hnot : ¬ ((65536 : Int) < (left : Int)) := by
      push_neg
      exact_mod_cast h2
    have : bracketLoop (left : Int) gscale 0 =
        bracketLoop (left : Int) gscale.tail 1 := by
      show bracketLoop (left : Int) (65536 :: gscale.tail) 0 = _
      rw [bracketLoop_cons, if_neg hnot]
    rw [this] at hj
    exact bracketLoop_ge (left : Int) gscale.tail 1 j hj
  · have := bracketLoop_lt_length (left : Int) gscale 0 j hj
    have hlen : gscale.length = 101 := by decide
    omega

/-- Adjacent entries of the corrected table never increase. -/
theorem gscalenew_adj : ∀ k : Fin 100, gElem (k.val + 1) ≤ gElem k.val := by decide

/-- The corrected table is monotonically non-increasing in its index. -/
theorem gElem_anti (i j : Nat) (hij : i ≤ j) (hj : j ≤ 100) : gElem j ≤ gElem i := by
  induction j with
  | zero =>
    have : i = 0 := Nat.le_zero.mp hij
    subst this
    exact le_refl _
  | succ n ih =>
    rcases Nat.lt_or_ge i (n + 1) with h | h
    · have step : gElem (n + 1) ≤ gElem n := gscalenew_adj ⟨n, by omega⟩
      exact le_trans step (ih (by omega) (by omega))
    · have : i = n + 1 := by omega
      subst this
      exact le_refl _

/-- Evaluation of the curve-corrected software branch for in-range inputs:
the bracket lands on index `k + 1` with `k ≤ 99` and both gains are the
corrected-table entry `gscalenew[k]`. -/
theorem swCurve_eval (left right : Nat) (dbc : Nat → Int)
    (h1 : 1 ≤ left) (h2 : left ≤ 65536) :
    ∃ k : Nat,
      lowerIdx left = k + 1 ∧ k ≤ 99 ∧
      gscalenew.get? k = some (gElem k) ∧
      set_volume swCurveCfg dbc left right =
        [VolEvent.setGains (gElem k) (gElem k)] := by
  rcases lowerIdx_bounds left h1 h2 with ⟨hsome, hge1, hle100⟩
  rcases Nat.exists_eq_add_of_le hge1 with ⟨k, hk⟩
  have hkeq : lowerIdx left = k + 1 := by omega
  have hklt : k < gscalenew.length := by
    have : gscalenew.length = 101 := by decide
    omega
  have hget : gscalenew.get? k = some (gscalenew.get ⟨k, hklt⟩) := List.get?_eq_get hklt
  have hgel : gscalenew.get? k = some (gElem k) := by
    unfold gElem
    rw [hget]
    rfl
  refine ⟨k, hkeq, by omega, hgel, ?_⟩
  have hleft0 : 0 < left := h1
  have htbl : tblGet gscalenew ((lowerIdx left : Int) - 1) = some (gElem k) := by
    rw [hkeq]
    have hcast : ((k + 1 : Nat) : Int) - 1 = (k : Int) := by push_cast; ring
    rw [hcast]
    unfold tblGet
    rw [if_pos (Int.ofNat_nonneg k), Int.toNat_ofNat]
    exact hgel
  simp only [set_volume, swCurveCfg, Option.isNone_none, if_pos, sw_gain_events,
    if_pos hleft0]
  simp [htbl]

/-- A nonnegative in-range index into `gscale` reads an entry. -/
theorem tblGet_gscale_some (n : Nat) (hn : n < 101) :
    ∃ g, tblGet gscale ((n : Int)) = some g := by
  have hlen : gscale.length = 101 := by decide
  have hget := List.get?_eq_get (l := gscale) (n := n) (by omega)
  refine ⟨gscale.get ⟨n, by omega⟩, ?_⟩
  unfold tblGet
  rw [if_pos (Int.ofNat_nonneg n), Int.toNat_ofNat]
  exact hget

/-- Every `set_mixer` call issues exactly one dB command. -/
theorem set_mixer_shape (cfg : VolCfg) (a b : Bool) (l r : Int) :
    ∃ d, set_mixer cfg a b l r = [VolEvent.mixerSet d] :=
  ⟨_, rfl⟩

/-- Evaluation of the hardware linear-table branch for in-range inputs:
both bracket reads are in bounds and a single mixer command follows the
unity-gain stores. -/
theorem hwLin_eval (left right : Nat) (dbc : Nat → Int) (mindb maxdb : Int)
    (h1 : 1 ≤ left) (h2 : left ≤ 65536) :
    ∃ d, set_volume (hwLinCfg mindb maxdb) dbc left right =
      [VolEvent.setGains FIXED_ONE FIXED_ONE, VolEvent.mixerSet d] := by
  rcases lowerIdx_bounds left h1 h2 with ⟨hsome, hge1, hle100⟩
  rcases Nat.exists_eq_add_of_le hge1 with ⟨k, hk⟩
  have hkeq : lowerIdx left = k + 1 := by omega
  rcases tblGet_gscale_some k (by omega) with ⟨gl, hgl⟩
  rcases tblGet_gscale_some (k + 1) (by omega) with ⟨gh, hgh⟩
  have hlo : tblGet gscale ((lowerIdx left : Int) - 1) = some gl := by
    rw [hkeq]
    have hcast : ((k + 1 : Nat) : Int) - 1 = (k : Int) := by push_cast; ring
    rw [hcast]
    exact hgl
  have hhi : tblGet gscale ((lowerIdx left : Int)) = some gh := by
    rw [hkeq]
    exact_mod_cast hgh
  have hleft0 : 0 < left := h1
  simp only [set_volume, hwLinCfg, Option.isNone_some, Bool.false_eq_true,
    if_false, hw_gain_events, Bool.not_true, if_pos hleft0]
  rw [hlo, hhi]
  simp [set_mixer]

/-- The bracket index is antitone in the input: a smaller volume lands on
an equal or later bracket. -/
theorem lowerIdx_mono (l1 l2 : Nat) (hle : l2 ≤ l1) (h1 : 1 ≤ l2) (h2 : l1 ≤ 65536) :
    lowerIdx l1 ≤ lowerIdx l2 := by
  have hb1 := (lowerIdx_bounds l1 (le_trans h1 hle) h2).1
  have hb2 := (lowerIdx_bounds l2 h1 (le_trans hle h2)).1
  have hcast : ((l2 : Int)) ≤ ((l1 : Int)) := by exact_mod_cast hle
  rcases bracketLoop_mono (l2 : Int) (l1 : Int) hcast gscale 0 (lowerIdx l2) hb2 with
    ⟨j', hj', hjle⟩
  have : j' = lowerIdx l1 := by
    rw [hb1] at hj'
    exact (Option.some_inj.mp hj').symm
  omega

/-! Write-error counter invariants. -/

/-- A closed session stays closed for the rest of the epoch. -/
theorem runWrites_closed (tr : List WriteEvent) (s : WriteState)
    (h : s.pcmpOpen = false) : runWrites s tr = s := by
  induction tr generalizing s with
  | nil => rfl
  | cons e es ih =>
    have hstep : writeStep s e = s := by
      unfold writeStep
      rw [h]
      simp
    rw [runWrites, hstep]
    exact ih s h

/-- While the session stays open, `recover_count` equals the starting
count plus the unrecoverable failures seen. -/
theorem runWrites_open_count (tr : List WriteEvent) :
    ∀ s : WriteState, s.pcmpOpen = true →
      (runWrites s tr).pcmpOpen = true →
      (runWrites s tr).recover_count = s.recover_count + countUnrec tr := by
  induction tr with
  | nil => intro s _ _; rfl
  | cons e es ih =>
    intro s hopen hend
    match e with
    | WriteEvent.ok =>
      have hstep : writeStep s WriteEvent.ok = s := by unfold writeStep; rw [hopen]; simp
      rw [runWrites, hstep] at hend ⊢
      rw [ih s hopen hend, countUnrec]
    | WriteEvent.recoverable =>
      have hstep : writeStep s WriteEvent.recoverable = s := by
        unfold writeStep; rw [hopen]; simp
      rw [runWrites, hstep] at hend ⊢
      rw [ih s hopen hend, countUnrec]
    | WriteEvent.unrecoverable =>
      by_cases hc : s.recover_count + 1 ≥ 10
      · have hstep : writeStep s WriteEvent.unrecoverable =
            { recover_count := 0, pcmpOpen := false } := by
          unfold writeStep; rw [hopen]; simp [hc]
        rw [runWrites, hstep] at hend
        rw [runWrites_closed es _ rfl] at hend
        simp at hend
      · have hstep : writeStep s WriteEvent.unrecoverable =
            { s with recover_count := s.recover_count + 1 } := by
          unfold writeStep; rw [hopen]; simp [hc]
        rw [runWrites, hstep] at hend ⊢
        have hih := ih { s with recover_count := s.recover_count + 1 } hopen hend
        rw [hih]
        simp [countUnrec]
        omega

/-- The counter never reaches 10 while the session is open. -/
theorem runWrites_count_lt (tr : List WriteEvent) :
    ∀ s : WriteState, s.recover_count < 10 →
      (runWrites s tr).recover_count < 10 := by
  induction tr with
  | nil => intro s h; exact h
  | cons e es ih =>
    intro s h
    rw [runWrites]
    apply ih
    unfold writeStep
    by_cases hopen : s.pcmpOpen
    · rw [hopen]
      match e with
      | WriteEvent.ok => simpa
      | WriteEvent.recoverable => simpa
      | WriteEvent.unrecoverable =>
        by_cases hc : s.recover_count + 1 ≥ 10
        · simp [hc]
        · simp [hc]; omega
    · simp [hopen, h]

/-- If the epoch ends closed, at least `10 - recover_count` unrecoverable
failures occurred. -/
theorem runWrites_closed_count (tr : List WriteEvent) :
    ∀ s : WriteState, s.pcmpOpen = true →
      (runWrites s tr).pcmpOpen = false →
      10 ≤ s.recover_count + countUnrec tr := by
  induction tr with
  | nil =>
    intro s hopen hend
    rw [runWrites] at hend
    rw [hopen] at hend
    simp at hend
  | cons e es ih =>
    intro s hopen hend
    match e with
    | WriteEvent.ok =>
      have hstep : writeStep s WriteEvent.ok = s := by unfold writeStep; rw [hopen]; simp
      rw [runWrites, hstep] at hend
      have := ih s hopen hend
      rw [countUnrec]
      omega
    | WriteEvent.recoverable =>
      have hstep : writeStep s WriteEvent.recoverable = s := by
        unfold writeStep; rw [hopen]; simp
      rw [runWrites, hstep] at hend
      have := ih s hopen hend
      rw [countUnrec]
      omega
    | WriteEvent.unrecoverable =>
      by_cases hc : s.recover_count + 1 ≥ 10
      · rw [countUnrec]
        omega
      · have hstep : writeStep s WriteEvent.unrecoverable =
            { s with recover_count := s.recover_count + 1 } := by
          unfold writeStep; rw [hopen]; simp [hc]
        rw [runWrites, hstep] at hend
        have hih := ih { s with recover_count := s.recover_count + 1 } hopen hend
        rw [countUnrec]
        simp at hih
        omega

/-- Every `set_mixer` event list is a single dB command, never a
software-gain store. -/
theorem hasSetGains_set_mixer (cfg : VolCfg) (a b : Bool) (l r : Int) :
    hasSetGains (set_mixer cfg a b l r) = false := rfl

/-- The hardware branch stores no further software gains after the unity
stores: it only issues the mixer command (or hits an OOB read). -/
theorem hasSetGains_hw_gain_events (cfg : VolCfg) (dbc : Nat → Int) (left : Nat) :
    hasSetGains (hw_gain_events cfg dbc left) = false := by
  unfold hw_gain_events
  by_cases hml : (!cfg.mixer_linear) = true
  · rw [if_pos hml]
    by_cases h0 : 0 < left
    · rw [if_pos h0]; rfl
    · rw [if_neg h0]; rfl
  · rw [if_neg hml]
    by_cases h0 : 0 < left
    · rw [if_pos h0]
      dsimp only
      rcases tblGet gscale ((lowerIdx left : Int) - 1) with _ | gl <;>
        rcases tblGet gscale ((lowerIdx left : Int)) with _ | gh <;> rfl
    · rw [if_neg h0]; rfl

/-- The software branch never issues a hardware mixer command. -/
theorem hasMixerCmd_sw_gain_events (cfg : VolCfg) (left right : Nat) :
    hasMixerCmd (sw_gain_events cfg left right) = false := by
  unfold sw_gain_events
  by_cases hdb : cfg.linear_dB_internal = true
  · rw [if_pos hdb]
    by_cases h0 : 0 < left
    · rw [if_pos h0]
      dsimp only
      rcases tblGet gscalenew ((lowerIdx left : Int) - 1) with _ | g <;> rfl
    · rw [if_neg h0]; rfl
  · rw [if_neg hdb]; rfl

/-! Claim theorems. -/

/-- C5: in `alsa_open` a buffer-size configuration value below the
disambiguation threshold 500 is interpreted as a duration in milliseconds
and negotiated as a buffer time of `value * 1000` microseconds, while a
value at or above 500 is interpreted as an explicit frame count and
negotiated as a buffer size; each input range selects exactly its
documented code path. -/
theorem alsa_buffer_threshold (b : Nat) :
    (b < 500 → alsaBufferRequest b = BufferReq.timeUs (b * 1000)) ∧
    (500 ≤ b → alsaBufferRequest b = BufferReq.sizeFrames b) := by
  constructor
  · intro h
    simp [alsaBufferRequest, h]
  · intro h
    simp [alsaBufferRequest, Nat.not_lt.mpr h]

/-- Witness for C5 at the spec's example inputs 40 (ms) and 4096 (frames). -/
theorem alsa_buffer_threshold_witness :
    alsaBufferRequest 40 = BufferReq.timeUs 40000 ∧
    alsaBufferRequest 4096 = BufferReq.sizeFrames 4096 :=
  ⟨(alsa_buffer_threshold 40).1 (by decide), (alsa_buffer_threshold 4096).2 (by decide)⟩

/-- C6: when the device name begins with `hw:` and the rate cannot be set,
`alsa_open` retries exactly once with the `plug`-prefixed variant of the
same name and resampling enabled (the first attempt has resampling
disabled); a name not beginning with `hw:` gets a single attempt with
resampling enabled and no retry. -/
theorem alsa_open_hw_retry_plug (dev : List Char) (rateOk : List Char → Bool) :
    (startsHw dev = true → rateOk dev = false →
      alsaOpenAttempts dev rateOk = [⟨dev, false⟩, ⟨plugVariant dev, true⟩]) ∧
    (startsHw dev = false → alsaOpenAttempts dev rateOk = [⟨dev, true⟩]) := by
  have hplug : startsHw (plugVariant dev) = false := rfl
  constructor
  · intro hhw hfail
    simp only [alsaOpenAttempts, rateLoop, hhw, hfail, hplug]
    by_cases h2 : rateOk (plugVariant dev) <;> simp [h2]
  · intro hhw
    by_cases h : rateOk dev <;> simp [alsaOpenAttempts, rateLoop, hhw, h]

/-- Witness for C6: a failing `hw:0` device retries as `plughw:0` with
resampling; a non-`hw:` name never retries. -/
theorem alsa_open_hw_retry_plug_witness :
    alsaOpenAttempts ['h', 'w', ':', '0'] (fun _ => false) =
      [⟨['h', 'w', ':', '0'], false⟩,
       ⟨['p', 'l', 'u', 'g', 'h', 'w', ':', '0'], true⟩] ∧
    alsaOpenAttempts ['d', 'e', 'f'] (fun _ => false) = [⟨['d', 'e', 'f'], true⟩] :=
  ⟨(alsa_open_hw_retry_plug ['h', 'w', ':', '0'] (fun _ => false)).1 (by decide) rfl,
   (alsa_open_hw_retry_plug ['d', 'e', 'f'] (fun _ => false)).2 (by decide)⟩

/-- C2 counterexample: ten unrecoverable write failures, each separated by
a successful write (so no two are consecutive), still close the session.
A successful write therefore does not restart the count, and fewer than 10
consecutive unrecoverable failures can close the session, contrary to the
claim. -/
theorem write_close_without_consecutive_failures :
    noAdjacentUnrec spacedFailTrace = true ∧
    (runWrites initWriteState spacedFailTrace).pcmpOpen = false := by decide

/-- C2 (amended): `_write_frames` closes the session (nulling the handle,
so a fresh open is required) exactly when the cumulative number of
unrecoverable write errors in the session epoch reaches 10; successful or
recovered writes leave the static counter unchanged rather than
restarting it. -/
theorem write_close_iff_ten_cumulative (tr : List WriteEvent) :
    (runWrites initWriteState tr).pcmpOpen = false ↔ 10 ≤ countUnrec tr := by
  constructor
  · intro h
    have := runWrites_closed_count tr initWriteState rfl h
    simpa [initWriteState] using this
  · intro h
    by_contra hopen
    have hopen2 : (runWrites initWriteState tr).pcmpOpen = true := by
      cases hval : (runWrites initWriteState tr).pcmpOpen
      · exact absurd hval hopen
      · rfl
    have hcount := runWrites_open_count tr initWriteState rfl hopen2
    have hlt := runWrites_count_lt tr initWriteState (by decide)
    rw [hcount] at hlt
    simp [initWriteState] at hlt
    omega

/-- C1 counterexample: for left input 65537 (just above the table maximum
65536) the bracket search breaks at index 0 and the curve-corrected path
then reads table index -1, an out-of-bounds access, instead of defaulting
to the first/loudest bracket. -/
theorem set_volume_above_max_oob :
    set_volume swCurveCfg dbConv0 65537 65537 = [VolEvent.oobRead gscalenew (-1)] ∧
    hasOob (set_volume swCurveCfg dbConv0 65537 65537) = true := by decide

/-- C1 (amended): for left inputs in [1, 65536] every lookup-table access
of `set_volume` (curve-corrected software path and hardware linear path)
stays within the 101-entry tables; for left inputs above 65536 the bracket
search selects index 0 and both paths then read table index -1, out of
bounds, rather than defaulting to the first/loudest bracket. -/
theorem set_volume_table_access_bounds (left right : Nat) (dbc : Nat → Int)
    (mindb maxdb : Int) :
    (1 ≤ left → left ≤ 65536 →
      hasOob (set_volume swCurveCfg dbc left right) = false ∧
      hasOob (set_volume (hwLinCfg mindb maxdb) dbc left right) = false) ∧
    (65536 < left →
      set_volume swCurveCfg dbc left right = [VolEvent.oobRead gscalenew (-1)] ∧
      set_volume (hwLinCfg mindb maxdb) dbc left right =
        [VolEvent.setGains FIXED_ONE FIXED_ONE, VolEvent.oobRead gscale (-1)]) := by
  constructor
  · intro h1 h2
    constructor
    · rcases swCurve_eval left right dbc h1 h2 with ⟨k, _, _, _, he⟩
      rw [he]
      rfl
    · rcases hwLin_eval left right dbc mindb maxdb h1 h2 with ⟨d, he⟩
      rw [he]
      rfl
  · intro hgt
    have hbreak : bracketLoop (left : Int) gscale 0 = some 0 := by
      show bracketLoop (left : Int) (65536 :: gscale.tail) 0 = some 0
      rw [bracketLoop_cons, if_pos]
      exact_mod_cast hgt
    have hlow : lowerIdx left = 0 := by
      simp [lowerIdx, hbreak]
    have h0 : 0 < left := by omega
    constructor
    · simp only [set_volume, swCurveCfg, Option.isNone_none, if_pos,
        sw_gain_events, if_pos h0, hlow]
      norm_num
      rfl
    · simp only [set_volume, hwLinCfg, Option.isNone_some, Bool.false_eq_true,
        if_false, hw_gain_events, Bool.not_true, if_pos h0, hlow]
      norm_num
      rfl

/-- Witness for C1 (amended): in-range input 100 is OOB-free on both
paths; input 70000 hits the index -1 read. -/
theorem set_volume_table_access_bounds_witness :
    hasOob (set_volume swCurveCfg dbConv0 100 0) = false ∧
    hasOob (set_volume (hwLinCfg (-10239) 0) dbConv0 100 0) = false ∧
    set_volume swCurveCfg dbConv0 70000 0 = [VolEvent.oobRead gscalenew (-1)] :=
  ⟨((set_volume_table_access_bounds 100 0 dbConv0 (-10239) 0).1 (by decide) (by decide)).1,
   ((set_volume_table_access_bounds 100 0 dbConv0 (-10239) 0).1 (by decide) (by decide)).2,
   ((set_volume_table_access_bounds 70000 0 dbConv0 (-10239) 0).2 (by decide)).1⟩

/-- C4: for all left inputs in [1, 65536] in curve-corrected software-gain
mode, `set_volume` stores a gain that is an entry of the corrected
101-entry table `gscalenew`, and the stored gain is monotonically
non-increasing as the input decreases. -/
theorem set_volume_curve_monotone_table (l1 l2 right : Nat) (dbc : Nat → Int)
    (h1 : 1 ≤ l2) (h2 : l2 ≤ l1) (h3 : l1 ≤ 65536) :
    ∃ g1 g2 : Int,
      set_volume swCurveCfg dbc l1 right = [VolEvent.setGains g1 g1] ∧
      set_volume swCurveCfg dbc l2 right = [VolEvent.setGains g2 g2] ∧
      g1 ∈ gscalenew ∧ g2 ∈ gscalenew ∧ g2 ≤ g1 := by
  rcases swCurve_eval l1 right dbc (le_trans h1 h2) h3 with ⟨k1, hk1eq, hk1le, hk1get, he1⟩
  rcases swCurve_eval l2 right dbc h1 (le_trans h2 h3) with ⟨k2, hk2eq, hk2le, hk2get, he2⟩
  have hmono := lowerIdx_mono l1 l2 h2 h1 h3
  have hk12 : k1 ≤ k2 := by omega
  refine ⟨gElem k1, gElem k2, he1, he2, ?_, ?_, ?_⟩
  · exact List.get?_mem hk1get
  · exact List.get?_mem hk2get
  · exact gElem_anti k1 k2 hk12 (by omega)

/-- Witness for C4 at the extreme in-range inputs 65536 and 1. -/
theorem set_volume_curve_monotone_table_witness :
    ∃ g1 g2 : Int,
      set_volume swCurveCfg dbConv0 65536 0 = [VolEvent.setGains g1 g1] ∧
      set_volume swCurveCfg dbConv0 1 0 = [VolEvent.setGains g2 g2] ∧
      g1 ∈ gscalenew ∧ g2 ∈ gscalenew ∧ g2 ≤ g1 :=
  set_volume_curve_monotone_table 65536 1 0 dbConv0 (by decide) (by decide) (by decide)

/-- C3 counterexample: in linear passthrough software mode,
`set_volume(0, 5)` stores a right gain of 5, not 0, so a left input of 0
does not mute both channels in every mode. -/
theorem set_volume_zero_left_right_passthrough :
    set_volume swLinearCfg dbConv0 0 5 = [VolEvent.setGains 0 5] ∧
    VolEvent.setGains 0 5 ≠ VolEvent.setGains 0 0 := by decide

/-- C3 (amended): a left input of 0 stores gains (0, 0) in the
curve-corrected software mode; in the linear passthrough mode it stores a
left gain of 0 and the right argument as right gain (mute on both channels
only when right is also 0); in both hardware-mixer modes it commands the
mixer to its queried minimum truncated to a whole decibel,
`100 * (mixer_mindb / 100)`. -/
theorem set_volume_zero_behaviour (right : Nat) (dbc : Nat → Int) (mindb maxdb : Int) :
    set_volume swCurveCfg dbc 0 right = [VolEvent.setGains 0 0] ∧
    set_volume swLinearCfg dbc 0 right = [VolEvent.setGains 0 (right : Int)] ∧
    set_volume (hwDbCfg mindb maxdb) dbc 0 right =
      [VolEvent.setGains FIXED_ONE FIXED_ONE,
       VolEvent.mixerSet (100 * mindb.tdiv 100)] ∧
    set_volume (hwLinCfg mindb maxdb) dbc 0 right =
      [VolEvent.setGains FIXED_ONE FIXED_ONE,
       VolEvent.mixerSet (100 * mindb.tdiv 100)] := by
  refine ⟨?_, ?_, ?_, ?_⟩ <;>
    simp [set_volume, swCurveCfg, swLinearCfg, hwDbCfg, hwLinCfg,
      sw_gain_events, hw_gain_events, set_mixer]

/-- C9: whenever a hardware mixer is configured, every `set_volume` call
first stores the fixed-point unity value to both software gain
coefficients and only then proceeds to the hardware branch, which stores
no further software gains, so software and hardware attenuation are never
applied simultaneously. -/
theorem hw_mixer_unity_software_gain (name : List Char) (lin dbint : Bool)
    (mindb maxdb : Int) (dbc : Nat → Int) (left right : Nat) :
    ∃ rest,
      set_volume ⟨some name, lin, dbint, mindb, maxdb⟩ dbc left right =
        VolEvent.setGains FIXED_ONE FIXED_ONE :: rest ∧
      hasSetGains rest = false := by
  refine ⟨hw_gain_events ⟨some name, lin, dbint, mindb, maxdb⟩ dbc left, ?_, ?_⟩
  · simp [set_volume]
  · exact hasSetGains_hw_gain_events _ dbc left

/-- C10 counterexample: in curve-corrected mode with left input 70000 > 0,
`set_volume` stores no gain at all — it performs an out-of-bounds table
read — so the stored gains are not entries of the corrected table for
every positive left input. -/
theorem set_volume_curve_above_max_no_entry :
    set_volume swCurveCfg dbConv0 70000 123 = [VolEvent.oobRead gscalenew (-1)] ∧
    hasSetGains (set_volume swCurveCfg dbConv0 70000 123) = false := by decide

/-- C10 (amended): in curve-corrected software mode the result of
`set_volume` for any positive left input is determined solely by the left
argument (the right argument and the dB-conversion are irrelevant), and
for left inputs in [1, 65536] both gains are set to the same entry of the
corrected table; above 65536 the code instead performs an out-of-bounds
read. -/
theorem set_volume_curve_left_determines (left r1 r2 : Nat) (dbc1 dbc2 : Nat → Int) :
    (0 < left →
      set_volume swCurveCfg dbc1 left r1 = set_volume swCurveCfg dbc2 left r2) ∧
    (1 ≤ left → left ≤ 65536 →
      ∃ g, set_volume swCurveCfg dbc1 left r1 = [VolEvent.setGains g g] ∧
        g ∈ gscalenew) := by
  constructor
  · intro h0
    simp [set_volume, swCurveCfg, sw_gain_events, h0]
  · intro h1 h2
    rcases swCurve_eval left r1 dbc1 h1 h2 with ⟨k, _, _, hget, he⟩
    exact ⟨gElem k, he, List.get?_mem hget⟩

/-- Witness for C10 (amended) at left input 500. -/
theorem set_volume_curve_left_determines_witness :
    set_volume swCurveCfg dbConv0 500 3 = set_volume swCurveCfg dbConv0 500 9 ∧
    ∃ g, set_volume swCurveCfg dbConv0 500 3 = [VolEvent.setGains g g] ∧
      g ∈ gscalenew :=
  ⟨(set_volume_curve_left_determines 500 3 9 dbConv0 dbConv0).1 (by decide),
   (set_volume_curve_left_determines 500 3 9 dbConv0 dbConv0).2 (by decide) (by decide)⟩

/-- C8: if `mixer_init_alsa` fails during `output_init_alsa`, the mixer
handle and mixer name are cleared, initialization still completes, and
every subsequent `set_volume` call with the resulting configuration takes
the software-gain branch, issuing no hardware mixer command. -/
theorem mixer_init_failure_soft_fallback (n : List Char) (unmute lin dbint : Bool)
    (mindb maxdb : Int) (dbc : Nat → Int) (left right : Nat) :
    (initVolumeMixerPath (some n) false unmute).mixer_handle_present = false ∧
    (initVolumeMixerPath (some n) false unmute).volume_mixer_name = none ∧
    (initVolumeMixerPath (some n) false unmute).init_completed = true ∧
    hasMixerCmd (set_volume
      ⟨(initVolumeMixerPath (some n) false unmute).volume_mixer_name,
        lin, dbint, mindb, maxdb⟩ dbc left right) = false := by
  refine ⟨rfl, rfl, rfl, ?_⟩
  show hasMixerCmd (set_volume ⟨none, lin, dbint, mindb, maxdb⟩ dbc left right) = false
  simp only [set_volume, Option.isNone_none, if_pos]
  exact hasMixerCmd_sw_gain_events _ left right

/-- C7: when a running iteration of `output_thread` observes the external
OFF state under the lock, it closes the device and nulls the handle within
that same iteration after exactly the pre-observation hardware calls
(state query and avail update), transitions to the off polling loop, and
an off iteration that still observes OFF performs no hardware calls at
all. -/
theorem output_thread_off_transition (p : AlsaParams) (s s2 : TState) (e e2 : ThreadEnv)
    (h1 : s.output_off = false) (h2 : s.probe_device = false)
    (h3 : s.pcmpOpen = true) (h4 : s.alsaRate = e.reqRate)
    (h5 : e.pcmState = PcmSt.run) (h6 : 0 ≤ e.avail)
    (h7 : p.period_size ≤ e.avail)
    (h8 : (if p.mmap then min e.avail p.buffer_size
           else min e.avail p.period_size) ≠ 0)
    (h9 : e.stateOff = true)
    (h10 : s2.output_off = true) (h11 : e2.stateOff = true) :
    iterate p s e =
      ({ s with pcmpOpen := false, output_off := true },
        [HwCall.queryState, HwCall.availUpdate, HwCall.closeDev]) ∧
    iterate p s2 e2 = (s2, []) := by
  constructor
  · have hnl : ¬ (e.avail < 0) := not_lt.mpr h6
    have hnp : ¬ (e.avail < p.period_size) := not_lt.mpr h7
    simp [iterate, iterBody, iterOpen, iterState, iterAvail, iterLock,
      h1, h2, h3, h4, h5, h9, hnl, hnp, h8]
  · simp [iterate, h10, h11]

/-- Witness for C7 at a concrete running state observing OFF, and a
concrete off state staying off. -/
theorem output_thread_off_transition_witness :
    iterate ⟨false, false, 100, 1000⟩ ⟨false, false, false, true, 44100, false⟩
        ⟨true, 44100, true, true, PcmSt.run, 400, false, true, false, true,
          DelayRes.ok⟩ =
      (⟨true, false, false, false, 44100, false⟩,
        [HwCall.queryState, HwCall.availUpdate, HwCall.closeDev]) ∧
    iterate ⟨false, false, 100, 1000⟩ ⟨true, false, false, false, 44100, false⟩
        ⟨true, 44100, true, true, PcmSt.run, 400, false, true, false, true,
          DelayRes.ok⟩ =
      (⟨true, false, false, false, 44100, false⟩, []) := by
  have h := output_thread_off_transition ⟨false, false, 100, 1000⟩
    ⟨false, false, false, true, 44100, false⟩ ⟨true, false, false, false, 44100, false⟩
    ⟨true, 44100, true, true, PcmSt.run, 400, false, true, false, true, DelayRes.ok⟩
    ⟨true, 44100, true, true, PcmSt.run, 400, false, true, false, true, DelayRes.ok⟩
    rfl rfl rfl rfl rfl (by decide) (by decide) (by decide) rfl rfl rfl
  exact h

end SqueezeliteAlsa
